import Mathlib

/-
Verification development for the HttpLibrary HTTP/1.1 message library.

The Rust sources (src/header/key.rs, src/header/value.rs, src/header.rs,
src/request.rs, src/request/error.rs, src/response.rs) are shallowly
embedded below.  Rust strings are modelled as lists of Unicode scalar
values (`List Nat`); Rust `Vec<u8>` bodies are modelled the same way
(all inspected content is ASCII, where chars and bytes coincide).
Fallible Rust functions returning `Result` are embedded as `Except`;
a Rust panic (reachable through slice indexing in `Request::from_str`)
is a distinct outcome of the dedicated `ParseOutcome` type.
-/

deriving instance DecidableEq for Except

abbrev Str := List Nat

def strOf (s : String) : Str := s.toList.map Char.toNat

def CRLF : Str := [13, 10]

/-- Rust `char::is_whitespace`: the Unicode White_Space property,
spelled out over code points. -/
def rustIsWhitespace (c : Nat) : Bool :=
  decide (c = 9 ∨ c = 10 ∨ c = 11 ∨ c = 12 ∨ c = 13 ∨ c = 32 ∨
    c = 0x85 ∨ c = 0xA0 ∨ c = 0x1680 ∨ (0x2000 ≤ c ∧ c ≤ 0x200A) ∨
    c = 0x2028 ∨ c = 0x2029 ∨ c = 0x202F ∨ c = 0x205F ∨ c = 0x3000)

/-- Rust `u8::is_ascii` lifted to scalar values: code point below 128. -/
def isAsciiChar (c : Nat) : Bool := decide (c ≤ 127)

/-- Rust `str::is_ascii`. -/
def strIsAscii (s : Str) : Bool := s.all isAsciiChar

/-- Rust `char::is_ascii_uppercase`. -/
def isAsciiUppercaseChar (c : Nat) : Bool := decide (65 ≤ c ∧ c ≤ 90)

/-- Rust `char::is_ascii_lowercase`. -/
def isAsciiLowercaseChar (c : Nat) : Bool := decide (97 ≤ c ∧ c ≤ 122)

/-- Rust `char::to_ascii_lowercase`: shift `A`..`Z` by 32, leave the rest. -/
def lowerChar (c : Nat) : Nat := if 65 ≤ c ∧ c ≤ 90 then c + 32 else c

/-- Rust `str::to_ascii_lowercase`. -/
def toAsciiLowercase (s : Str) : Str := s.map lowerChar

/-- Rust `str::trim_start` (drops leading Unicode whitespace). -/
def trimStart (s : Str) : Str := s.dropWhile rustIsWhitespace

/-- Rust `str::trim_end` (drops trailing Unicode whitespace). -/
def trimEnd (s : Str) : Str := (s.reverse.dropWhile rustIsWhitespace).reverse

/-- Rust `str::trim`. -/
def rustTrim (s : Str) : Str := trimEnd (trimStart s)

/-- Rust `str::split_inclusive('\n')`: pieces keep their terminating
newline; an empty input yields no pieces. -/
def splitInclusiveNl : Str → List Str
  | [] => []
  | c :: rest =>
    if c = 10 then [c] :: splitInclusiveNl rest
    else
      match splitInclusiveNl rest with
      | [] => [[c]]
      | p :: ps => (c :: p) :: ps

/-- The per-line map inside Rust `str::lines`: strip one trailing `\n`,
and if one was stripped also one trailing `\r`. -/
def stripLineEnd (p : Str) : Str :=
  match p.reverse with
  | 10 :: 13 :: t => t.reverse
  | 10 :: t => t.reverse
  | _ => p

/-- Rust `str::lines`. -/
def rustLines (s : Str) : List Str := (splitInclusiveNl s).map stripLineEnd

/-- Rust `str::split_whitespace` worker: `acc` holds the current word
reversed. -/
def splitWhitespaceAux : Str → Str → List Str
  | [], acc => if acc.isEmpty then [] else [acc.reverse]
  | c :: rest, acc =>
    if rustIsWhitespace c then
      if acc.isEmpty then splitWhitespaceAux rest []
      else acc.reverse :: splitWhitespaceAux rest []
    else splitWhitespaceAux rest (c :: acc)

/-- Rust `str::split_whitespace`: words separated by Unicode whitespace,
empty pieces discarded. -/
def splitWhitespace (s : Str) : List Str := splitWhitespaceAux s []

/-- Rust `str::split_once(sep)`: split at the first occurrence of `sep`. -/
def splitOnce (sep : Nat) : Str → Option (Str × Str)
  | [] => none
  | c :: rest =>
    if c = sep then some ([], rest)
    else
      match splitOnce sep rest with
      | none => none
      | some (a, b) => some (c :: a, b)

/-- Rust `str::strip_prefix` for a literal: drop `pre` from the front of
`s` when it is there, otherwise `none`. -/
def stripLeading : Str → Str → Option Str
  | [], s => some s
  | _ :: _, [] => none
  | p :: ps, c :: cs => if c = p then stripLeading ps cs else none

/-- Rust slice indexing `&v[..n]`: `none` models the out-of-bounds panic
when `n` exceeds the length. -/
def sliceTo (n : Nat) (l : List α) : Option (List α) :=
  if l.length < n then none else some (l.take n)

/-- Rust unsigned-integer `str::parse`: an optional leading `+`, then at
least one ASCII digit, decimal value.  The field type of `Version` is
not in src/; per the spec the components are non-negative with no upper
bound, so no overflow check is modelled. -/
def parseNat (s : Str) : Option Nat :=
  let t := match s with
    | 43 :: rest => rest
    | _ => s
  if t.isEmpty then none
  else if t.all (fun c => decide (48 ≤ c ∧ c ≤ 57)) then
    some (t.foldl (fun a c => a * 10 + (c - 48)) 0)
  else none

/-- Decimal rendering of a number, as Rust `format!` displays unsigned
integers. -/
def natToStr (n : Nat) : Str := (Nat.toDigits 10 n).map Char.toNat

/- ------------------------------------------------------------------ -/
/- src/header.rs: error taxonomies                                     -/
/- ------------------------------------------------------------------ -/

inductive KeyError
  | NonAsciiChars
  | EmptyString
  | LeadingWhitespace
  | ColonWhitespace
deriving DecidableEq, Repr

inductive ValueError
  | NonAsciiChars
  | EmptyString
  | IllegalChars
deriving DecidableEq, Repr

inductive HeaderError
  | Key (e : KeyError)
  | Value (e : ValueError)
  | NoSeparator
deriving DecidableEq, Repr

/- ------------------------------------------------------------------ -/
/- src/header/key.rs and src/header/value.rs                           -/
/- ------------------------------------------------------------------ -/

/-- Embeds `Key::new` from src/header/key.rs: ASCII check, emptiness check,
leading-whitespace check, trailing-whitespace check, in that order;
stores the ASCII-lowercased input. -/
def Key.new (s : Str) : Except KeyError Str :=
  if !(strIsAscii s) then .error .NonAsciiChars
  else if s.isEmpty then .error .EmptyString
  else if trimStart s ≠ s then .error .LeadingWhitespace
  else if trimEnd s ≠ s then .error .ColonWhitespace
  else .ok (toAsciiLowercase s)

/-- Embeds `Value::new` from src/header/value.rs: trim first, then ASCII check,
emptiness check, and the check for `\r`, `\n`, `\0`. -/
def Value.new (s : Str) : Except ValueError Str :=
  let t := rustTrim s
  if !(strIsAscii t) then .error .NonAsciiChars
  else if t.isEmpty then .error .EmptyString
  else if t.any (fun c => c = 13 || c = 10 || c = 0) then .error .IllegalChars
  else .ok t

/-- Embeds `Value::append` from src/header/value.rs: validate the new raw text
via `Value::new`, then push `,` and the cleaned text onto the stored
value. -/
def Value.append (v : Str) (s : Str) : Except ValueError Str :=
  match Value.new s with
  | .error e => .error e
  | .ok cleaned => .ok (v ++ 44 :: cleaned)

/- ------------------------------------------------------------------ -/
/- The header map: Rust HashMap<Key, Value> with the Entry-based        -/
/- merge-on-insert used by both request.rs and response.rs.  The map    -/
/- is embedded as an association list; derived equality on Key is       -/
/- plain equality of the stored (lowercased) strings.                   -/
/- ------------------------------------------------------------------ -/

abbrev HeaderMap := List (Str × Str)

def HeaderMap.containsKey : HeaderMap → Str → Bool
  | [], _ => false
  | (k, _) :: rest, key => k = key || HeaderMap.containsKey rest key

def HeaderMap.find : HeaderMap → Str → Option Str
  | [], _ => none
  | (k, v) :: rest, key => if k = key then some v else HeaderMap.find rest key

/-- The `HashMap::entry` insert-or-merge step shared by request parsing
and response building: `Entry::Occupied` appends to the stored value,
`Entry::Vacant` inserts `Value::new` of the raw text. -/
def entryUpsert : HeaderMap → Str → Str → Except ValueError HeaderMap
  | [], k, raw =>
    match Value.new raw with
    | .error e => .error e
    | .ok v => .ok [(k, v)]
  | (k', v') :: rest, k, raw =>
    if k' = k then
      match Value.append v' raw with
      | .error e => .error e
      | .ok v'' => .ok ((k', v'') :: rest)
    else
      match entryUpsert rest k raw with
      | .error e => .error e
      | .ok r => .ok ((k', v') :: r)

/- ------------------------------------------------------------------ -/
/- src/request.rs                                                      -/
/- ------------------------------------------------------------------ -/

inductive RequestMethod
  | Get
  | Head
  | Post
  | Put
  | Delete
  | Connect
  | Options
  | Trace
deriving DecidableEq, Repr

def RequestMethod.is_safe : RequestMethod → Bool
  | .Get | .Head | .Options | .Trace => true
  | _ => false

def RequestMethod.is_idempotent (m : RequestMethod) : Bool :=
  m.is_safe || (m = .Put || m = .Delete)

inductive MethodParseError
  | NotAsciiUppercase
  | NotAMethod
deriving DecidableEq, Repr

/-- Embeds `<RequestMethod as FromStr>::from_str`: every character must be
ASCII uppercase, then the word must be one of the eight literals. -/
def RequestMethod.fromStr (s : Str) : Except MethodParseError RequestMethod :=
  if !(s.all isAsciiUppercaseChar) then .error .NotAsciiUppercase
  else if s = strOf (r"GET") then .ok .Get
  else if s = strOf (r"HEAD") then .ok .Head
  else if s = strOf (r"POST") then .ok .Post
  else if s = strOf (r"PUT") then .ok .Put
  else if s = strOf (r"DELETE") then .ok .Delete
  else if s = strOf (r"CONNECT") then .ok .Connect
  else if s = strOf (r"OPTIONS") then .ok .Options
  else if s = strOf (r"TRACE") then .ok .Trace
  else .error .NotAMethod

/-- Modelled from the spec: the `Version` struct (its definition lives in
the final lib.rs, which is not under src/); a pair of non-negative
integers with no upper bound. -/
structure Version where
  major : Nat
  minor : Nat
deriving DecidableEq, Repr

inductive RequestParseError
  | EmptyRequest
  | MissingStartlineElements
  | InvalidHttpWord
  | MethodNotRecognized (e : MethodParseError)
  | BadHeader (e : HeaderError)
  | InvalidVersion
deriving DecidableEq, Repr

structure Request where
  method : RequestMethod
  path : Str
  headers : HeaderMap
  version : Version
deriving DecidableEq, Repr

/-- Outcome of `<Request as FromStr>::from_str`: success, a
`RequestParseError`, or a Rust panic (reachable through the
`firstline[..3]` slice indexing). -/
inductive ParseOutcome (α : Type)
  | panic
  | error (e : RequestParseError)
  | ok (a : α)
deriving DecidableEq, Repr

/-- The version phase of `from_str`: `strip_prefix("HTTP/")`, then
`split_once('.')` with both pieces parsed as integers. -/
def parseHttpWord (c : Str) : Except RequestParseError Version :=
  match stripLeading (strOf (r"HTTP/")) c with
  | none => .error .InvalidHttpWord
  | some v =>
    match splitOnce 46 v with
    | none => .error .InvalidVersion
    | some (ma, mi) =>
      match parseNat ma, parseNat mi with
      | some x, some y => .ok ⟨x, y⟩
      | _, _ => .error .InvalidVersion

/-- One step of the header fold in `from_str`: keep an error once seen;
otherwise `split_once(':')`, validate the key, and insert-or-merge. -/
def headerStep (acc : Except HeaderError HeaderMap) (line : Str) :
    Except HeaderError HeaderMap :=
  match acc with
  | .error e => .error e
  | .ok h =>
    match splitOnce 58 line with
    | none => .error .NoSeparator
    | some (k, v) =>
      match Key.new k with
      | .error e => .error (.Key e)
      | .ok key =>
        match entryUpsert h key v with
        | .error e => .error (.Value e)
        | .ok h' => .ok h'

/-- The header fold over a list of lines, from the empty map. -/
def foldHeaders (ls : List Str) : Except HeaderError HeaderMap :=
  ls.foldl headerStep (.ok [])

/-- Continuation of `from_str` after the start-line tokens are in hand: version word
first, then the header fold over the lines before the first empty one,
then — last — the method word. -/
def parseRest (a b c : Str) (hlines : List Str) : ParseOutcome Request :=
  match parseHttpWord c with
  | .error e => .error e
  | .ok version =>
    match foldHeaders (hlines.takeWhile (fun l => !l.isEmpty)) with
    | .error e => .error (.BadHeader e)
    | .ok headers =>
      match RequestMethod.fromStr a with
      | .error e => .error (.MethodNotRecognized e)
      | .ok method => .ok ⟨method, b, headers, version⟩

/-- The start of `from_str`: `lines.next()`, skipping exactly one
leading empty line, with `EmptyRequest` when nothing is left.  Returns
the start line plus the remaining lines. -/
def startlineAndRest (s : Str) : Option (Str × List Str) :=
  match rustLines s with
  | [] => none
  | first :: rest =>
    if first.isEmpty then
      match rest with
      | [] => none
      | f :: r => some (f, r)
    else some (first, rest)

/-- Embeds `<Request as FromStr>::from_str` from src/request.rs.  The start
line is split on whitespace and then sliced as `firstline[..3]`: with
fewer than three tokens that slice indexing panics; the source's
`_ => MissingStartlineElements` match arm is only reachable from a
slice of a different length, hence dead. -/
def Request.fromStr (s : Str) : ParseOutcome Request :=
  match startlineAndRest s with
  | none => .error .EmptyRequest
  | some (startline, rest) =>
    match sliceTo 3 (splitWhitespace startline) with
    | none => .panic
    | some sl =>
      match sl with
      | [a, b, c] => parseRest a b c rest
      | _ => .error .MissingStartlineElements

/- ------------------------------------------------------------------ -/
/- src/response.rs                                                     -/
/- ------------------------------------------------------------------ -/

inductive Response
  | Continue
  | SwitchingProtocols
  | Processing
  | EarlyHints
  | Ok
  | Created
  | Accepted
  | NonAuthoritativeInformation
  | NoContent
  | ResetContent
  | PartialContent
  | MultiStatus
  | AlreadyReported
  | ImUsed
  | MultipleChoices
  | MovedPermanently
  | Found
  | SeeOther
  | NotModified
  | UseProxy
  | SwitchProxy
  | TemporaryRedirect
  | PermanentRedirect
  | BadRequest
  | Unauthorized
  | PaymentRequired
  | Forbidden
  | NotFound
  | MethodNotAllowed
  | NotAcceptable
  | ProxyAuthenticationRequired
  | RequestTimeout
  | Conflict
  | Gone
  | LengthRequired
  | PreconditonFailed
  | PayloadTooLarge
  | UriTooLong
  | UnsupportedMediaType
  | RangeNotSatisfiable
  | ExpectationFailed
  | ImATeapot
  | MisdirectedRequest
  | UnprocessableEntity
  | Locked
  | FailedDependency
  | TooEarly
  | UpgradeRequired
  | PreconditionRequired
  | TooManyRequests
  | RequestHeaderFieldsTooLarge
  | UnavailableForLegalReasons
  | ServerError
  | NotImplemented
  | BadGateway
  | ServiceUnavailable
  | GatewayTimeout
  | HttpVersionNotSupported
  | VariantAlsoNegotiates
  | NetworkAuthenticationRequired
  | InsufficientStorage
  | LoopDetected
  | NotExtended
deriving DecidableEq, Repr

/-- The explicit enum discriminants of `Response` (`self as u16`). -/
def Response.code : Response → Nat
  | .Continue => 100
  | .SwitchingProtocols => 101
  | .Processing => 102
  | .EarlyHints => 103
  | .Ok => 200
  | .Created => 201
  | .Accepted => 202
  | .NonAuthoritativeInformation => 203
  | .NoContent => 204
  | .ResetContent => 205
  | .PartialContent => 206
  | .MultiStatus => 207
  | .AlreadyReported => 208
  | .ImUsed => 226
  | .MultipleChoices => 300
  | .MovedPermanently => 301
  | .Found => 302
  | .SeeOther => 303
  | .NotModified => 304
  | .UseProxy => 305
  | .SwitchProxy => 306
  | .TemporaryRedirect => 307
  | .PermanentRedirect => 308
  | .BadRequest => 400
  | .Unauthorized => 401
  | .PaymentRequired => 402
  | .Forbidden => 403
  | .NotFound => 404
  | .MethodNotAllowed => 405
  | .NotAcceptable => 406
  | .ProxyAuthenticationRequired => 407
  | .RequestTimeout => 408
  | .Conflict => 409
  | .Gone => 410
  | .LengthRequired => 411
  | .PreconditonFailed => 412
  | .PayloadTooLarge => 413
  | .UriTooLong => 414
  | .UnsupportedMediaType => 415
  | .RangeNotSatisfiable => 416
  | .ExpectationFailed => 417
  | .ImATeapot => 418
  | .MisdirectedRequest => 421
  | .UnprocessableEntity => 422
  | .Locked => 423
  | .FailedDependency => 424
  | .TooEarly => 425
  | .UpgradeRequired => 426
  | .PreconditionRequired => 428
  | .TooManyRequests => 429
  | .RequestHeaderFieldsTooLarge => 431
  | .UnavailableForLegalReasons => 451
  | .ServerError => 500
  | .NotImplemented => 501
  | .BadGateway => 502
  | .ServiceUnavailable => 503
  | .GatewayTimeout => 504
  | .HttpVersionNotSupported => 505
  | .VariantAlsoNegotiates => 506
  | .NetworkAuthenticationRequired => 511
  | .InsufficientStorage => 507
  | .LoopDetected => 508
  | .NotExtended => 510

/-- Embeds `standard_phrase` from src/response.rs, verbatim — including the
lowercase `Accepted` at 202 and the spellings at 406 and 412. -/
def standard_phrase (code : Nat) : Option Str :=
  match code with
  | 100 => some (strOf (r"CONTINUE"))
  | 101 => some (strOf (r"SWITCHING PROTOCOLS"))
  | 102 => some (strOf (r"PROCESSING"))
  | 103 => some (strOf (r"EARLY HINTS"))
  | 200 => some (strOf (r"OK"))
  | 201 => some (strOf (r"CREATED"))
  | 202 => some (strOf (r"Accepted"))
  | 203 => some (strOf (r"NON-AUTHORITATIVE INFORMATION"))
  | 204 => some (strOf (r"NO CONTENT"))
  | 205 => some (strOf (r"RESET CONTENT"))
  | 206 => some (strOf (r"PARTIAL CONTENT"))
  | 207 => some (strOf (r"MULTI-STATUS"))
  | 208 => some (strOf (r"ALREADY REPORTED"))
  | 226 => some (strOf (r"IM USED"))
  | 300 => some (strOf (r"MULTIPLE CHOICES"))
  | 301 => some (strOf (r"MOVED PERMANENTLY"))
  | 302 => some (strOf (r"FOUND"))
  | 303 => some (strOf (r"SEE OTHER"))
  | 304 => some (strOf (r"NOT MODIFIED"))
  | 305 => some (strOf (r"USE PROXY"))
  | 306 => some (strOf (r"SWITCH PROXY"))
  | 307 => some (strOf (r"TEMPORARY REDIRECT"))
  | 308 => some (strOf (r"PERMANENT REDIRECT"))
  | 400 => some (strOf (r"BAD REQUEST"))
  | 401 => some (strOf (r"UNAUTHORIZED"))
  | 402 => some (strOf (r"PAYMENT REQUIRED"))
  | 403 => some (strOf (r"FORBIDDEN"))
  | 404 => some (strOf (r"NOT FOUND"))
  | 405 => some (strOf (r"METHOD NOT ALLOWED"))
  | 406 => some (strOf (r"NOT ACCCEPTABLE"))
  | 407 => some (strOf (r"PROXY AUTHENTICATION REQUIRED"))
  | 408 => some (strOf (r"REQUEST TIMEOUT"))
  | 409 => some (strOf (r"CONFLICT"))
  | 410 => some (strOf (r"GONE"))
  | 411 => some (strOf (r"LENGTH REQUIRED"))
  | 412 => some (strOf (r"PRECONDITON FAILED"))
  | 413 => some (strOf (r"PAYLOAD TOO LARGE"))
  | 414 => some (strOf (r"URI TOO LONG"))
  | 415 => some (strOf (r"UNSUPPORTED MEDIA TYPE"))
  | 416 => some (strOf (r"RANGE NOT SATISFIABLE"))
  | 417 => some (strOf (r"EXPECTATION FAILED"))
  | 418 => some (strOf (r"IM A TEAPOT"))
  | 421 => some (strOf (r"MISDIRECTED REQUEST"))
  | 422 => some (strOf (r"UNPROCESSABLE ENTITY"))
  | 423 => some (strOf (r"LOCKED"))
  | 424 => some (strOf (r"FAILED DEPENDENCY"))
  | 425 => some (strOf (r"TOO EARLY"))
  | 426 => some (strOf (r"UPGRADE REQUIRED"))
  | 428 => some (strOf (r"PRECONDITION REQUIRED"))
  | 429 => some (strOf (r"TOO MANY REQUESTS"))
  | 431 => some (strOf (r"REQUEST HEADER FIELDS TOO LARGE"))
  | 451 => some (strOf (r"UNAVAILABLE FOR LEGAL REASONS"))
  | 500 => some (strOf (r"SERVER ERROR"))
  | 501 => some (strOf (r"NOT IMPLEMENTED"))
  | 502 => some (strOf (r"BAD GATEWAY"))
  | 503 => some (strOf (r"SERVICE UNAVAILABLE"))
  | 504 => some (strOf (r"GATEWAY TIMEOUT"))
  | 505 => some (strOf (r"HTTP VERSION NOT SUPPORTED"))
  | 506 => some (strOf (r"VARIANT ALSO NEGOTIATES"))
  | 507 => some (strOf (r"INSUFFICIENT STORAGE"))
  | 508 => some (strOf (r"LOOP DETECTED"))
  | 510 => some (strOf (r"NOT EXTENDED"))
  | 511 => some (strOf (r"NETWORK AUTHENTICATION REQUIRED"))
  | _ => none

/-- The `ResponseCode::standard_phrase` trait method: a total lookup
over the enum (`standard_phrase(code).unwrap()`; the `none` arm is
unreachable for enum values). -/
def Response.standardPhrase (resp : Response) : Str :=
  match standard_phrase resp.code with
  | some p => p
  | none => []

/-- The two phantom builder stages of `ResponseBuilder<S>`. -/
inductive BuilderState
  | Incomplete
  | Complete
deriving DecidableEq, Repr

/-- Embeds `ResponseBuilder<S>`: status, body bytes, accumulated header map;
the stage is a phantom index exactly as in the source. -/
structure ResponseBuilder (S : BuilderState) where
  response : Response
  body : Str
  headers : HeaderMap
deriving DecidableEq, Repr

/-- Embeds `Response::body`: build a `Complete` builder with no headers. -/
def Response.body (resp : Response) (b : Str) : ResponseBuilder .Complete :=
  ⟨resp, b, []⟩

/-- Embeds `Response::header`: validate key and value, start an `Incomplete`
builder with that single header. -/
def Response.header (resp : Response) (k v : Str) :
    Except HeaderError (ResponseBuilder .Incomplete) :=
  match Key.new k with
  | .error e => .error (.Key e)
  | .ok key =>
    match Value.new v with
    | .error e => .error (.Value e)
    | .ok val => .ok ⟨resp, [], [(key, val)]⟩

/-- Embeds `ResponseBuilder::<Incomplete>::body` (named `setBody` here because
`body` is the field name). -/
def ResponseBuilder.setBody (rb : ResponseBuilder .Incomplete) (b : Str) :
    ResponseBuilder .Complete :=
  ⟨rb.response, b, rb.headers⟩

/-- Embeds `ResponseBuilder::<Incomplete>::header`: validate the key, then
insert-or-merge through the map entry. -/
def ResponseBuilder.header (rb : ResponseBuilder .Incomplete) (k v : Str) :
    Except HeaderError (ResponseBuilder .Incomplete) :=
  match Key.new k with
  | .error e => .error (.Key e)
  | .ok key =>
    match entryUpsert rb.headers key v with
    | .error e => .error (.Value e)
    | .ok h => .ok ⟨rb.response, rb.body, h⟩

/-- Embeds `IntoBytes::max_version` for `ResponseBuilder<S>`: 1.1 exactly when
the current header map holds the canonical key `host`, else 1.0. -/
def ResponseBuilder.max_version {S : BuilderState} (rb : ResponseBuilder S) :
    Version :=
  if HeaderMap.containsKey rb.headers (strOf (r"host")) then ⟨1, 1⟩ else ⟨1, 0⟩

/-- Embeds `FirstLine::first_line` for a builder:
`HTTP/{major}.{minor} {code} {PHRASE}`. -/
def ResponseBuilder.first_line {S : BuilderState} (rb : ResponseBuilder S) :
    Str :=
  strOf (r"HTTP/") ++ natToStr rb.max_version.major ++ 46 ::
    natToStr rb.max_version.minor ++ 32 ::
    natToStr rb.response.code ++ 32 :: rb.response.standardPhrase

/-- Rust `Vec::join("\r\n")` over a list of line strings. -/
def joinCRLF : List Str → Str
  | [] => []
  | [x] => x
  | x :: y :: rest => x ++ CRLF ++ joinCRLF (y :: rest)

/-- Embeds `IntoBytes::into_bytes` for `ResponseBuilder<S>`: first line and
`key:value` header lines joined by CRLF, then a blank line, then the
body bytes. -/
def ResponseBuilder.into_bytes {S : BuilderState} (rb : ResponseBuilder S) :
    Str :=
  joinCRLF (rb.first_line :: rb.headers.map (fun kv => kv.1 ++ 58 :: kv.2))
    ++ CRLF ++ CRLF ++ rb.body

/- ------------------------------------------------------------------ -/
/- src/request/error.rs                                                -/
/- ------------------------------------------------------------------ -/

/-- Embeds `RequestParseError::appropriate_response` from src/request/error.rs. -/
def RequestParseError.appropriate_response :
    RequestParseError → Option Response
  | .MethodNotRecognized _ => some .NotImplemented
  | .BadHeader (.Key .ColonWhitespace) => some .BadRequest
  | _ => none

/- ------------------------------------------------------------------ -/
/- Invariants on stored header data (for claim C9)                     -/
/- ------------------------------------------------------------------ -/

/-- A stored header key: non-empty, ASCII, no uppercase ASCII letter,
no leading and no trailing whitespace. -/
def keyInv (k : Str) : Bool :=
  !k.isEmpty && strIsAscii k && k.all (fun c => !isAsciiUppercaseChar c)
    && decide (trimStart k = k) && decide (trimEnd k = k)

/-- A stored header value: non-empty, ASCII, free of CR, LF and NUL. -/
def valueInv (v : Str) : Bool :=
  !v.isEmpty && strIsAscii v
    && !(v.any (fun c => c = 13 || c = 10 || c = 0))

/-- Every entry of a header map satisfies the key and value rules. -/
def mapInv (h : HeaderMap) : Bool :=
  h.all (fun kv => keyInv kv.1 && valueInv kv.2)

/- ------------------------------------------------------------------ -/
/- Helper lemmas                                                       -/
/- ------------------------------------------------------------------ -/

theorem length_dropWhile_le (p : Nat → Bool) (l : Str) :
    (l.dropWhile p).length ≤ l.length :=
  (List.dropWhile_sublist p).length_le

theorem trimStart_ne_of_ws (c : Nat) (t : Str) (h : rustIsWhitespace c = true) :
    trimStart (c :: t) ≠ c :: t := by
  intro heq
  have hlen := congrArg List.length heq
  simp only [trimStart, List.dropWhile_cons_of_pos h] at hlen
  have := length_dropWhile_le rustIsWhitespace t
  simp at hlen
  omega

theorem trimStart_eq_of_head (s : Str)
    (h : ∀ c, s.head? = some c → rustIsWhitespace c = false) :
    trimStart s = s := by
  cases s with
  | nil => rfl
  | cons c t =>
    have hc := h c rfl
    simp [trimStart, List.dropWhile_cons, hc]

theorem trimEnd_ne_of_last (s : Str) (c : Nat)
    (hrev : s.reverse.head? = some c) (h : rustIsWhitespace c = true) :
    trimEnd s ≠ s := by
  intro heq
  have hlen := congrArg List.length heq
  obtain ⟨t, ht⟩ : ∃ t, s.reverse = c :: t := by
    cases hs : s.reverse with
    | nil => rw [hs] at hrev; cases hrev
    | cons a b => rw [hs] at hrev; simp at hrev; exact ⟨b, by rw [hrev]⟩
  have hslen : s.length = t.length + 1 := by
    have := congrArg List.length ht
    simpa using this
  simp only [trimEnd, ht, List.dropWhile_cons_of_pos h] at hlen
  have := length_dropWhile_le rustIsWhitespace t
  simp [hslen] at hlen
  omega

theorem trimEnd_eq_of_last (s : Str)
    (h : ∀ c, s.reverse.head? = some c → rustIsWhitespace c = false) :
    trimEnd s = s := by
  unfold trimEnd
  cases hs : s.reverse with
  | nil =>
    have h0 : s = [] := by simpa using congrArg List.reverse hs
    simp [h0]
  | cons c t =>
    have hc : rustIsWhitespace c = false := h c (by rw [hs]; rfl)
    have h1 : s = (c :: t).reverse := by simpa using congrArg List.reverse hs
    rw [List.dropWhile_cons, hc]
    simp
    simpa using h1.symm

theorem lowerChar_ascii (c : Nat) (h : isAsciiChar c = true) :
    isAsciiChar (lowerChar c) = true := by
  simp [isAsciiChar] at h ⊢
  unfold lowerChar
  split <;> omega

theorem lowerChar_not_upper (c : Nat) :
    isAsciiUppercaseChar (lowerChar c) = false := by
  simp [isAsciiUppercaseChar]
  unfold lowerChar
  split <;> omega

theorem ws_lowerChar (c : Nat) :
    rustIsWhitespace (lowerChar c) = rustIsWhitespace c := by
  unfold rustIsWhitespace lowerChar
  rw [decide_eq_decide]
  split <;> omega

theorem keyNew_ok (s k : Str) (h : Key.new s = .ok k) :
    strIsAscii s = true ∧ s.isEmpty = false ∧ trimStart s = s ∧ trimEnd s = s
      ∧ k = toAsciiLowercase s := by
  unfold Key.new at h
  repeat' split at h
  all_goals simp_all

theorem valueNew_ok (s v : Str) (h : Value.new s = .ok v) :
    v = rustTrim s ∧ strIsAscii v = true ∧ v.isEmpty = false
      ∧ (v.any (fun c => c = 13 || c = 10 || c = 0)) = false := by
  simp only [Value.new] at h
  repeat' split at h
  all_goals simp_all

theorem valueInv_of_new (s v : Str) (h : Value.new s = .ok v) :
    valueInv v = true := by
  obtain ⟨-, h2, h3, h4⟩ := valueNew_ok s v h
  simp [valueInv, h2, h3, h4]

theorem valueInv_append (v s v' : Str) (hv : valueInv v = true)
    (h : Value.append v s = .ok v') : valueInv v' = true := by
  unfold Value.append at h
  split at h
  · cases h
  · rename_i cleaned hc
    cases h
    have hcv := valueInv_of_new s cleaned hc
    simp only [valueInv, Bool.and_eq_true, Bool.not_eq_true'] at hv hcv ⊢
    obtain ⟨⟨hv1, hv2⟩, hv3⟩ := hv
    obtain ⟨⟨hc1, hc2⟩, hc3⟩ := hcv
    refine ⟨⟨?_, ?_⟩, ?_⟩
    · cases v <;> simp
    · simp only [strIsAscii, List.all_append, List.all_cons] at hv2 hc2 ⊢
      simp [hv2, hc2, isAsciiChar]
    · simp only [List.any_append, List.any_cons] at hv3 hc3 ⊢
      simp [hv3, hc3]

theorem head_not_ws_of_trimStart (s : Str) (h3 : trimStart s = s) :
    ∀ c, s.head? = some c → rustIsWhitespace c = false := by
  intro c hc
  by_contra hb
  have hws : rustIsWhitespace c = true := by
    revert hb; cases rustIsWhitespace c <;> simp
  cases s with
  | nil => cases hc
  | cons a t =>
    have hac : a = c := by simpa using hc
    subst hac
    exact trimStart_ne_of_ws a t hws h3

theorem last_not_ws_of_trimEnd (s : Str) (h4 : trimEnd s = s) :
    ∀ c, s.reverse.head? = some c → rustIsWhitespace c = false := by
  intro c hc
  by_contra hb
  have hws : rustIsWhitespace c = true := by
    revert hb; cases rustIsWhitespace c <;> simp
  exact trimEnd_ne_of_last s c hc hws h4

theorem keyInv_of_new (s k : Str) (h : Key.new s = .ok k) : keyInv k = true := by
  obtain ⟨h1, h2, h3, h4, hk⟩ := keyNew_ok s k h
  subst hk
  have hs_head := head_not_ws_of_trimStart s h3
  have hs_last := last_not_ws_of_trimEnd s h4
  have c1 : (toAsciiLowercase s).isEmpty = false := by
    cases s with
    | nil => simp at h2
    | cons a t => simp [toAsciiLowercase]
  have c2 : strIsAscii (toAsciiLowercase s) = true := by
    simp only [strIsAscii, toAsciiLowercase, List.all_map]
    rw [List.all_eq_true]
    intro c hc
    simp only [Function.comp]
    exact lowerChar_ascii c (List.all_eq_true.mp h1 c hc)
  have c3 : (toAsciiLowercase s).all (fun c => !isAsciiUppercaseChar c) = true := by
    simp only [toAsciiLowercase, List.all_map]
    rw [List.all_eq_true]
    intro c hc
    simp [Function.comp, lowerChar_not_upper]
  have c4 : trimStart (toAsciiLowercase s) = toAsciiLowercase s := by
    apply trimStart_eq_of_head
    intro c hc
    cases s with
    | nil => cases hc
    | cons a t =>
      simp [toAsciiLowercase] at hc
      subst hc
      rw [ws_lowerChar]
      exact hs_head a (by simp)
  have c5 : trimEnd (toAsciiLowercase s) = toAsciiLowercase s := by
    apply trimEnd_eq_of_last
    intro c hc
    have hrev : (toAsciiLowercase s).reverse = s.reverse.map lowerChar := by
      simp [toAsciiLowercase]
    rw [hrev] at hc
    cases hs : s.reverse with
    | nil => rw [hs] at hc; cases hc
    | cons a t =>
      rw [hs] at hc
      simp at hc
      subst hc
      rw [ws_lowerChar]
      exact hs_last a (by rw [hs]; rfl)
  simp [keyInv, c1, c2, c3, c4, c5]

theorem entryUpsert_ok_mapInv (h : HeaderMap) (k raw : Str) (h' : HeaderMap)
    (hm : mapInv h = true) (hk : keyInv k = true)
    (he : entryUpsert h k raw = .ok h') : mapInv h' = true := by
  induction h generalizing h' with
  | nil =>
    unfold entryUpsert at he
    split at he
    · cases he
    · rename_i v hv
      cases he
      simp [mapInv, hk, valueInv_of_new raw v hv]
  | cons kv rest ih =>
    obtain ⟨k', v'⟩ := kv
    unfold entryUpsert at he
    simp only [mapInv, List.all_cons, Bool.and_eq_true] at hm
    obtain ⟨⟨hk', hv'⟩, hrest⟩ := hm
    split at he
    · split at he
      · cases he
      · rename_i v'' hv''
        cases he
        simp only [mapInv, List.all_cons, Bool.and_eq_true]
        exact ⟨⟨hk', valueInv_append v' raw v'' hv' hv''⟩, hrest⟩
    · split at he
      · cases he
      · rename_i r hr
        cases he
        simp only [mapInv, List.all_cons, Bool.and_eq_true]
        exact ⟨⟨hk', hv'⟩, ih r hrest hr⟩

theorem entryUpsert_containsKey (h : HeaderMap) (k raw : Str) (h' : HeaderMap)
    (he : entryUpsert h k raw = .ok h') :
    HeaderMap.containsKey h' k = true := by
  induction h generalizing h' with
  | nil =>
    unfold entryUpsert at he
    split at he
    · cases he
    · cases he
      simp [HeaderMap.containsKey]
  | cons kv rest ih =>
    obtain ⟨k', v'⟩ := kv
    unfold entryUpsert at he
    split at he
    · rename_i hkk
      split at he
      · cases he
      · cases he
        simp [HeaderMap.containsKey, hkk]
    · rename_i hkk
      split at he
      · cases he
      · rename_i r hr
        cases he
        simp [HeaderMap.containsKey, ih r hr]

theorem headerStep_ok_mapInv (h : HeaderMap) (line : Str) (h' : HeaderMap)
    (hm : mapInv h = true) (hs : headerStep (.ok h) line = .ok h') :
    mapInv h' = true := by
  simp only [headerStep] at hs
  split at hs
  next => cases hs
  next lk lv hsp =>
    split at hs
    next => cases hs
    next key hkey =>
      split at hs
      next => cases hs
      next x h2 h2e =>
        injection hs with hs2
        subst hs2
        exact entryUpsert_ok_mapInv h key lv h2 hm (keyInv_of_new lk key hkey) h2e

theorem foldl_headerStep_error (ls : List Str) (e : HeaderError) :
    List.foldl headerStep (.error e) ls = .error e := by
  induction ls with
  | nil => rfl
  | cons l rest ih => simpa [headerStep] using ih

theorem foldl_headerStep_mapInv (ls : List Str) (h : HeaderMap)
    (hm : mapInv h = true) (h' : HeaderMap)
    (hf : List.foldl headerStep (.ok h) ls = .ok h') : mapInv h' = true := by
  induction ls generalizing h with
  | nil =>
    cases hf
    exact hm
  | cons l rest ih =>
    rw [List.foldl_cons] at hf
    cases hstep : headerStep (.ok h) l with
    | error e =>
      rw [hstep, foldl_headerStep_error] at hf
      cases hf
    | ok h2 =>
      rw [hstep] at hf
      exact ih h2 (headerStep_ok_mapInv h l h2 hm hstep) hf

theorem parseRest_ok_mapInv (a b c : Str) (hl : List Str) (r : Request)
    (h : parseRest a b c hl = .ok r) : mapInv r.headers = true := by
  unfold parseRest at h
  split at h
  · cases h
  · split at h
    · cases h
    · rename_i headers hf
      split at h
      · cases h
      · cases h
        exact foldl_headerStep_mapInv _ [] rfl headers hf

theorem fromStr_ok_mapInv (s : Str) (r : Request)
    (h : Request.fromStr s = .ok r) : mapInv r.headers = true := by
  unfold Request.fromStr at h
  split at h
  · cases h
  · split at h
    · cases h
    · split at h
      · exact parseRest_ok_mapInv _ _ _ _ r h
      · cases h

/- ------------------------------------------------------------------ -/
/- Claim theorems                                                      -/
/- ------------------------------------------------------------------ -/

/-- Claim C1 (code bug): the claim says a start line with fewer than
three whitespace tokens makes parsing return `MissingStartlineElements`;
in the code the `firstline[..3]` slice indexing panics first, so on the
input `GET /\r\n` the parse panics and the error is never produced (the
source's error arm is dead code). -/
theorem c1_startline_under_three_tokens_panics :
    Request.fromStr (strOf (r"GET /") ++ CRLF) = .panic
    ∧ Request.fromStr (strOf (r"GET /") ++ CRLF)
        ≠ .error .MissingStartlineElements := by decide

/-- Claim C2, counterexample: building a response from status 200 with
header `hi: its me` and body `someBODY` does NOT serialize with version
1.1 — no `host` header is present, so the advertised version is 1.0. -/
theorem c2_counterexample_version_claimed_1_1 :
    (Response.header Response.Ok (strOf (r"hi")) (strOf (r"its me"))).map
      (fun rb => (rb.setBody (strOf (r"someBODY"))).into_bytes)
    ≠ .ok (strOf (r"HTTP/1.1 200 OK") ++ CRLF ++ strOf (r"hi:its me")
        ++ CRLF ++ CRLF ++ strOf (r"someBODY")) := by decide

/-- Claim C2, amended: the same build serializes to exactly
`HTTP/1.0 200 OK\r\nhi:its me\r\n\r\nsomeBODY` (version 1.0 because no
`host` header is present; this matches the source's own unit test). -/
theorem c2_serialization_http_1_0 :
    (Response.header Response.Ok (strOf (r"hi")) (strOf (r"its me"))).map
      (fun rb => (rb.setBody (strOf (r"someBODY"))).into_bytes)
    = .ok (strOf (r"HTTP/1.0 200 OK") ++ CRLF ++ strOf (r"hi:its me")
        ++ CRLF ++ CRLF ++ strOf (r"someBODY")) := by decide

/-- Claim C3, counterexample: on `FOO / HTTP/1.1\r\nnocolon\r\n` the
method word `FOO` is not a recognized method, yet the parse fails with
`BadHeader(NoSeparator)`, not `MethodNotRecognized`: the source parses
the method word after the header fold. -/
theorem c3_counterexample_header_error_precedes_method :
    Request.fromStr (strOf (r"FOO / HTTP/1.1") ++ CRLF
        ++ strOf (r"nocolon") ++ CRLF)
      = .error (.BadHeader .NoSeparator)
    ∧ RequestMethod.fromStr (strOf (r"FOO")) = .error .NotAMethod
    ∧ Request.fromStr (strOf (r"FOO / HTTP/1.1") ++ CRLF
        ++ strOf (r"nocolon") ++ CRLF)
      ≠ .error (.MethodNotRecognized .NotAMethod)
    ∧ Request.fromStr (strOf (r"FOO / HTTP/1.1") ++ CRLF
        ++ strOf (r"nocolon") ++ CRLF)
      ≠ .error (.MethodNotRecognized .NotAsciiUppercase) := by decide

/-- Claim C3, amended: header validation precedes method validation.
With a valid version word, if the header fold fails the parse returns
that header error even when the method word is also unrecognized; the
method error surfaces only when every header line is valid. -/
theorem c3_header_before_method (a b c : Str) (hl : List Str)
    (ver : Version) (m : MethodParseError)
    (hver : parseHttpWord c = .ok ver)
    (hm : RequestMethod.fromStr a = .error m) :
    (∀ e : HeaderError,
      foldHeaders (hl.takeWhile (fun l => !l.isEmpty)) = .error e →
      parseRest a b c hl = .error (.BadHeader e))
    ∧ (∀ h : HeaderMap,
      foldHeaders (hl.takeWhile (fun l => !l.isEmpty)) = .ok h →
      parseRest a b c hl = .error (.MethodNotRecognized m)) := by
  constructor
  · intro e he
    simp [parseRest, hver, he]
  · intro h hh
    simp [parseRest, hver, hh, hm]

theorem c3_header_before_method_witness :
    parseRest (strOf (r"FOO")) (strOf (r"/")) (strOf (r"HTTP/1.1"))
      [strOf (r"nocolon")] = .error (.BadHeader .NoSeparator) :=
  (c3_header_before_method (strOf (r"FOO")) (strOf (r"/"))
    (strOf (r"HTTP/1.1")) [strOf (r"nocolon")] ⟨1, 1⟩ .NotAMethod
    (by decide) (by decide)).1 .NoSeparator (by decide)

/-- Claim C4 (code bug): the claim says every canonical reason phrase
contains no lowercase ASCII letter; `standard_phrase(202)` returns
`Accepted`, which does (the source's own doc heading for the variant is
`202 ACCEPTED`).  The 404 phrase is `NOT FOUND` as claimed. -/
theorem c4_phrase_202_lowercase :
    Response.code Response.Accepted = 202
    ∧ standard_phrase 202 = some (strOf (r"Accepted"))
    ∧ (strOf (r"Accepted")).any isAsciiLowercaseChar = true
    ∧ Response.standardPhrase Response.Accepted = strOf (r"Accepted")
    ∧ standard_phrase 404 = some (strOf (r"NOT FOUND")) := by decide

/-- Claim C5: the advertised version is 1.1 exactly when the current
header map holds the canonical key `host` (recomputed from the map at
serialization time), 1.0 exactly when it does not, and inserting a
header whose ASCII-lowercased key is `host` — in any case — yields a
builder that advertises 1.1. -/
theorem c5_max_version_host :
    (∀ (S : BuilderState) (rb : ResponseBuilder S),
        rb.max_version = ⟨1, 1⟩ ↔
          HeaderMap.containsKey rb.headers (strOf (r"host")) = true)
    ∧ (∀ (S : BuilderState) (rb : ResponseBuilder S),
        rb.max_version = ⟨1, 0⟩ ↔
          HeaderMap.containsKey rb.headers (strOf (r"host")) = false)
    ∧ (∀ (rb rb' : ResponseBuilder .Incomplete) (k v : Str),
        toAsciiLowercase k = strOf (r"host") →
        ResponseBuilder.header rb k v = .ok rb' →
        rb'.max_version = ⟨1, 1⟩) := by
  refine ⟨?_, ?_, ?_⟩
  · intro S rb
    unfold ResponseBuilder.max_version
    cases hc : HeaderMap.containsKey rb.headers (strOf (r"host")) <;> simp [hc]
  · intro S rb
    unfold ResponseBuilder.max_version
    cases hc : HeaderMap.containsKey rb.headers (strOf (r"host")) <;> simp [hc]
  · intro rb rb' k v hk hh
    simp only [ResponseBuilder.header] at hh
    split at hh
    next => cases hh
    next key hkey =>
      split at hh
      next => cases hh
      next x hmap hup =>
        injection hh with hh2
        subst hh2
        have hkeyeq : key = strOf (r"host") := by
          rw [(keyNew_ok k key hkey).2.2.2.2, hk]
        unfold ResponseBuilder.max_version
        have : HeaderMap.containsKey hmap (strOf (r"host")) = true := by
          rw [← hkeyeq]
          exact entryUpsert_containsKey rb.headers key v hmap hup
        simp [this]

theorem c5_max_version_host_witness :
    ResponseBuilder.max_version
      (⟨Response.Ok, [], [(strOf (r"host"), strOf (r"x"))]⟩ :
        ResponseBuilder .Incomplete) = ⟨1, 1⟩ :=
  c5_max_version_host.2.2 ⟨Response.Ok, [], []⟩
    ⟨Response.Ok, [], [(strOf (r"host"), strOf (r"x"))]⟩
    (strOf (r"Host")) (strOf (r"x")) (by decide) (by decide)

/-- Claim C6: appending to an existing header value concatenates as
`existing + "," + trimmed-new` (44 is the comma), and parsing one
request with the header lines `Some_header: A`, `Some_Header: B`,
`some_header:    C    ` yields the single merged header
`some_header: A,B,C`. -/
theorem c6_append_merge :
    (∀ (v s cleaned : Str), Value.new s = .ok cleaned →
        cleaned = rustTrim s ∧ Value.append v s = .ok (v ++ 44 :: cleaned))
    ∧ Request.fromStr (strOf (r"POST /stuff HTTP/1.1") ++ CRLF
        ++ strOf (r"Some_header: A") ++ CRLF
        ++ strOf (r"Some_Header: B") ++ CRLF
        ++ strOf (r"some_header:    C    ") ++ CRLF)
      = .ok ⟨.Post, strOf (r"/stuff"),
          [(strOf (r"some_header"), strOf (r"A,B,C"))], ⟨1, 1⟩⟩ := by
  constructor
  · intro v s cleaned hc
    refine ⟨(valueNew_ok s cleaned hc).1, ?_⟩
    unfold Value.append
    rw [hc]
  · decide

theorem c6_append_merge_witness :
    Value.append (strOf (r"A")) (strOf (r" B")) = .ok (strOf (r"A,B")) := by
  have h := (c6_append_merge.1 (strOf (r"A")) (strOf (r" B")) (strOf (r"B"))
    (by decide)).2
  exact h.trans (by decide)

/-- Claim C7: `Key::new` reports errors in the fixed order non-ASCII,
empty, leading whitespace, trailing whitespace — so when several
conditions hold the earlier one wins — and on success stores exactly
the ASCII-lowercased input. -/
theorem c7_key_check_order :
    (∀ s : Str, s.any (fun c => !isAsciiChar c) = true →
        Key.new s = .error .NonAsciiChars)
    ∧ Key.new [] = .error .EmptyString
    ∧ (∀ (c : Nat) (t : Str), strIsAscii (c :: t) = true →
        rustIsWhitespace c = true →
        Key.new (c :: t) = .error .LeadingWhitespace)
    ∧ (∀ (s : Str) (c : Nat), strIsAscii s = true → s ≠ [] →
        (∀ c0, s.head? = some c0 → rustIsWhitespace c0 = false) →
        s.reverse.head? = some c → rustIsWhitespace c = true →
        Key.new s = .error .ColonWhitespace)
    ∧ (∀ s : Str, strIsAscii s = true → s ≠ [] →
        (∀ c0, s.head? = some c0 → rustIsWhitespace c0 = false) →
        (∀ c0, s.reverse.head? = some c0 → rustIsWhitespace c0 = false) →
        Key.new s = .ok (toAsciiLowercase s)) := by
  refine ⟨?_, by decide, ?_, ?_, ?_⟩
  · intro s h
    rcases List.any_eq_true.mp h with ⟨c, hc, hnc⟩
    have hall : strIsAscii s = false := by
      cases hall : strIsAscii s with
      | false => rfl
      | true =>
        have := List.all_eq_true.mp hall c hc
        simp [this] at hnc
    simp [Key.new, hall]
  · intro c t ha hws
    have h1 : trimStart (c :: t) ≠ c :: t := trimStart_ne_of_ws c t hws
    simp [Key.new, ha, h1]
  · intro s c ha hne hhead hrev hws
    have h0 : trimStart s = s := trimStart_eq_of_head s hhead
    have h1 : trimEnd s ≠ s := trimEnd_ne_of_last s c hrev hws
    have h2 : s.isEmpty = false := by cases s <;> simp_all
    simp [Key.new, ha, h0, h1, h2]
  · intro s ha hne hhead hlast
    have h0 : trimStart s = s := trimStart_eq_of_head s hhead
    have h1 : trimEnd s = s := trimEnd_eq_of_last s hlast
    have h2 : s.isEmpty = false := by cases s <;> simp_all
    simp [Key.new, ha, h0, h1, h2]

theorem c7_key_check_order_witness :
    Key.new (32 :: strOf (r"x")) = .error .LeadingWhitespace :=
  c7_key_check_order.2.2.1 32 (strOf (r"x")) (by decide) (by decide)

/-- Claim C8: `appropriate_response` maps `MethodNotRecognized(_)` (for
either method sub-error) to status 501, `BadHeader(Key(ColonWhitespace))`
to status 400, and every other parse error to `none`. -/
theorem c8_appropriate_response :
    (∀ m : MethodParseError,
        RequestParseError.appropriate_response (.MethodNotRecognized m)
          = some .NotImplemented)
    ∧ RequestParseError.appropriate_response
        (.BadHeader (.Key .ColonWhitespace)) = some .BadRequest
    ∧ (∀ e : RequestParseError, (∀ m, e ≠ .MethodNotRecognized m) →
        e ≠ .BadHeader (.Key .ColonWhitespace) →
        RequestParseError.appropriate_response e = none)
    ∧ Response.code .NotImplemented = 501
    ∧ Response.code .BadRequest = 400 := by
  refine ⟨fun _ => rfl, rfl, ?_, rfl, rfl⟩
  intro e h1 h2
  match e with
  | .EmptyRequest => rfl
  | .MissingStartlineElements => rfl
  | .InvalidHttpWord => rfl
  | .InvalidVersion => rfl
  | .MethodNotRecognized m => exact absurd rfl (h1 m)
  | .BadHeader he =>
    match he with
    | .NoSeparator => rfl
    | .Value ve => rfl
    | .Key ke =>
      match ke with
      | .NonAsciiChars => rfl
      | .EmptyString => rfl
      | .LeadingWhitespace => rfl
      | .ColonWhitespace => exact absurd rfl h2

theorem c8_appropriate_response_witness :
    RequestParseError.appropriate_response .EmptyRequest = none :=
  c8_appropriate_response.2.2.1 .EmptyRequest (fun _ h => nomatch h)
    (fun h => nomatch h)

/-- Claim C9: every header-map operation — the header-line step and the
whole header fold in request parsing, and the first/subsequent header
insertions in response building — keeps every stored key non-empty,
ASCII, lowercase, and free of surrounding whitespace, and every stored
value non-empty, ASCII, and free of CR, LF and NUL. -/
theorem c9_header_map_invariant :
    (∀ (h : HeaderMap) (line : Str) (h' : HeaderMap), mapInv h = true →
        headerStep (.ok h) line = .ok h' → mapInv h' = true)
    ∧ (∀ (ls : List Str) (h : HeaderMap), foldHeaders ls = .ok h →
        mapInv h = true)
    ∧ (∀ (resp : Response) (k v : Str) (rb : ResponseBuilder .Incomplete),
        Response.header resp k v = .ok rb → mapInv rb.headers = true)
    ∧ (∀ (rb : ResponseBuilder .Incomplete) (k v : Str)
        (rb' : ResponseBuilder .Incomplete), mapInv rb.headers = true →
        ResponseBuilder.header rb k v = .ok rb' → mapInv rb'.headers = true)
    ∧ (∀ (s : Str) (req : Request), Request.fromStr s = .ok req →
        mapInv req.headers = true) := by
  refine ⟨headerStep_ok_mapInv, ?_, ?_, ?_, fromStr_ok_mapInv⟩
  · intro ls h hf
    exact foldl_headerStep_mapInv ls [] rfl h hf
  · intro resp k v rb hh
    simp only [Response.header] at hh
    split at hh
    next => cases hh
    next key hkey =>
      split at hh
      next => cases hh
      next x val hval =>
        injection hh with hh2
        subst hh2
        simp [mapInv, keyInv_of_new k key hkey, valueInv_of_new v val hval]
  · intro rb k v rb' hm hh
    simp only [ResponseBuilder.header] at hh
    split at hh
    next => cases hh
    next key hkey =>
      split at hh
      next => cases hh
      next x h2 h2e =>
        injection hh with hh2
        subst hh2
        exact entryUpsert_ok_mapInv rb.headers key v h2 hm
          (keyInv_of_new k key hkey) h2e

theorem c9_header_map_invariant_witness :
    mapInv [(strOf (r"some_header"), strOf (r"A"))] = true :=
  c9_header_map_invariant.2.2.2.2
    (strOf (r"POST /stuff HTTP/1.1") ++ CRLF
      ++ strOf (r"Some_header: A") ++ CRLF)
    ⟨.Post, strOf (r"/stuff"), [(strOf (r"some_header"), strOf (r"A"))],
      ⟨1, 1⟩⟩
    (by decide)

/-- Claim C10: when the start line splits into more than three
whitespace tokens, parsing proceeds with the first three as method
word, request-target and version word, and the remaining tokens play no
role in the result. -/
theorem c10_extra_tokens_ignored (s sl : Str) (rest : List Str)
    (a b c : Str) (extra : List Str)
    (h1 : startlineAndRest s = some (sl, rest))
    (h2 : splitWhitespace sl = a :: b :: c :: extra) :
    Request.fromStr s = parseRest a b c rest := by
  have hslice : sliceTo 3 (splitWhitespace sl) = some [a, b, c] := by
    rw [h2]
    unfold sliceTo
    rw [if_neg (by simp)]
    simp [List.take]
  unfold Request.fromStr
  simp only [h1, hslice]

theorem c10_extra_tokens_ignored_witness :
    Request.fromStr (strOf (r"GET / HTTP/1.1 EXTRA JUNK") ++ CRLF)
      = parseRest (strOf (r"GET")) (strOf (r"/")) (strOf (r"HTTP/1.1")) [] :=
  c10_extra_tokens_ignored
    (strOf (r"GET / HTTP/1.1 EXTRA JUNK") ++ CRLF)
    (strOf (r"GET / HTTP/1.1 EXTRA JUNK")) []
    (strOf (r"GET")) (strOf (r"/")) (strOf (r"HTTP/1.1"))
    [strOf (r"EXTRA"), strOf (r"JUNK")]
    (by decide) (by decide)
